import Mathlib

/-!
Shallow embedding of the `discogs-load` core (src/discogs-load/src).

The embedding models the XML event stream produced by quick_xml, the four
entity-parser state machines (`artist.rs`, `label.rs`, `master.rs`,
`release.rs`) and the batched bulk-load sink (`db.rs`).

Modelling conventions:
* XML events carry decoded, unescaped text; UTF-8 decoding and XML
  unescaping are assumed to succeed (no claim concerns encoding errors).
* `HashMap<i32, T>` is modelled by an insertion-ordered association list
  `List (Int × T)`; `entry(k).or_insert(v)` becomes `insertIfAbsent`.
  Only key-set semantics of the map are used by the code (iteration order
  of a Rust HashMap is arbitrary; the spec states only row content
  matters), so the ordered list is a sound refinement.
* A database write (`write_releases` / `write_artists` / ...) is modelled
  as a pure record of what was handed to the bulk writer: one `FlushCall`
  value per call, holding the row lists per table in the order the call
  writes them on its single connection.  Database failures are not
  modelled; all write calls succeed.
* Rust's `unwrap()` on a missing positional attribute is a panic, not an
  error return; the model keeps the two outcomes distinct in `Halt`.
* `str::parse::<i32>` is `parseI32` (sign, digits, 32-bit range check);
  `str::parse::<String>` is the identity and cannot fail.
-/

/-- One quick_xml pull-parser event, as consumed by `Parser::process`.
`startE`/`emptyE` carry the (already unescaped) positional attribute
values. -/
inductive XEvent where
  | startE (name : String) (attrs : List String)
  | endE (name : String)
  | emptyE (name : String) (attrs : List String)
  | textE (s : String)
  | otherE
deriving DecidableEq, Repr

/-- Value of a decimal digit. -/
def digitVal (c : Char) : Option Nat :=
  if c.isDigit then some (c.toNat - '0'.toNat) else none

/-- Fold a digit string to a number; `none` if any char is not a digit. -/
def digitsVal (cs : List Char) : Option Nat :=
  cs.foldl
    (fun acc c =>
      match acc, digitVal c with
      | some n, some d => some (n * 10 + d)
      | _, _ => none)
    (some 0)

/-- `str::parse::<i32>`: optional sign, at least one digit, result within
the 32-bit two's-complement range. -/
def parseI32 (s : String) : Option Int :=
  let core : Int → List Char → Option Int := fun sign cs =>
    if cs = [] then none
    else
      match digitsVal cs with
      | none => none
      | some n =>
        let v : Int := sign * (n : Int)
        if -(2 ^ 31) ≤ v ∧ v < 2 ^ 31 then some v else none
  match s.data with
  | '+' :: cs => core 1 cs
  | '-' :: cs => core (-1) cs
  | cs => core 1 cs

/-- Association-list lookup (model of `HashMap::get` / occupancy check). -/
def lookupA {α : Type} (k : Int) : List (Int × α) → Option α
  | [] => none
  | (k', v) :: rest => if k = k' then some v else lookupA k rest

/-- Keys of the association list. -/
def keysA {α : Type} (m : List (Int × α)) : List Int :=
  m.map Prod.fst

/-- Values of the association list, in insertion order. -/
def valsA {α : Type} (m : List (Int × α)) : List α :=
  m.map Prod.snd

/-- `HashMap::entry(k).or_insert(v)`: insert only when the key is absent. -/
def insertIfAbsent {α : Type} (k : Int) (v : α) (m : List (Int × α)) :
    List (Int × α) :=
  match lookupA k m with
  | some _ => m
  | none => m ++ [(k, v)]

/-- How a `process` call terminated abnormally: an error propagated with
`?` (`errH`) or a Rust panic from `unwrap()` on a missing attribute
(`panicH`). -/
inductive Halt where
  | errH
  | panicH
deriving DecidableEq, Repr

/-! ## Release family (src/discogs-load/src/release.rs) -/

/-- `Release` row (release.rs, struct Release). -/
structure Release where
  id : Int
  status : String
  title : String
  country : String
  released : String
  notes : String
  genres : List String
  styles : List String
  master_id : Int
  data_quality : String
deriving DecidableEq, Repr

/-- `Release::new()`. -/
def Release.new : Release :=
  { id := 0, status := "", title := "", country := "", released := ""
    notes := "", genres := [], styles := [], master_id := 0
    data_quality := "" }

/-- `ReleaseLabel` row (release.rs, struct ReleaseLabel). -/
structure ReleaseLabel where
  release_id : Int
  label : String
  catno : String
  label_id : Int
deriving DecidableEq, Repr

/-- `ReleaseVideo` row (release.rs, struct ReleaseVideo). -/
structure ReleaseVideo where
  release_id : Int
  duration : Int
  src : String
  title : String
deriving DecidableEq, Repr

/-- `ParserReadState` of release.rs. -/
inductive RState where
  | Release
  | Title
  | Country
  | Released
  | Notes
  | Genres
  | Genre
  | Styles
  | Style
  | MasterId
  | DataQuality
  | Labels
  | Videos
deriving DecidableEq, Repr

/-- The mutable non-sink data of `ReleasesParser`: the scratch record and
the two counters.  Grouped so the batch-size-independent part of the state
is one value. -/
structure RScratch where
  current_release : Release
  current_id : Int
  current_video_id : Int
deriving DecidableEq, Repr

/-- One call of `write_releases` (db.rs): the three row lists handed to
the bulk writer, in the order they are written — parent table first, then
`release_label`, then `release_video` — all on the single connection the
call opens. -/
structure FlushCall where
  releaseRows : List Release
  labelRows : List ReleaseLabel
  videoRows : List ReleaseVideo
deriving DecidableEq, Repr

/-- A commit attempt offered to the sink (one `entry(k).or_insert(v)`):
observation trace used to state sink-independence of the parser. -/
inductive CommitOp where
  | parent (k : Int) (r : Release)
  | labelC (k : Int) (r : ReleaseLabel)
  | videoC (k : Int) (r : ReleaseVideo)
deriving DecidableEq, Repr

/-- Effect of one transition on the sink, in program order. -/
inductive REff where
  | commitParent (k : Int) (r : Release)
  | commitLabel (k : Int) (r : ReleaseLabel)
  | commitVideo (k : Int) (r : ReleaseVideo)
  | flushIfFull
  | flushRemainder
deriving DecidableEq, Repr

/-- Result of the pure part of one `ReleasesParser::process` step: next
state, updated scratch, and the sink effects to apply, or an abnormal halt
(the scratch carries any field writes made before the failure point, as in
the Rust code where `self` keeps mutations made before the early
return). -/
inductive RTrans where
  | ok (s : RState) (scr : RScratch) (effs : List REff)
  | errT (scr : RScratch)
  | panicT (scr : RScratch)

/-- Pure transition of `ReleasesParser::process` (release.rs, lines
153-372), branch for branch.  Attribute access `attributes().nth(i)` is
`attrs.get? i`; a missing attribute is the `unwrap()` panic.  In
`Start(release)` the `status` field is assigned from attribute 1 before
the id attribute is parsed, exactly as in the source. -/
def transitionR (st : RState) (scr : RScratch) (ev : XEvent) : RTrans :=
  match st with
  | .Release =>
    match ev with
    | .startE "release" attrs =>
      match attrs.get? 1 with
      | none => .panicT scr
      | some sv =>
        let scr1 :=
          { scr with current_release := { scr.current_release with status := sv } }
        match attrs.get? 0 with
        | none => .panicT scr1
        | some idv =>
          match parseI32 idv with
          | none => .errT scr1
          | some i =>
            .ok .Release
              { scr1 with
                current_id := i
                current_release :=
                  { scr1.current_release with id := i, genres := [], styles := [] } }
              []
    | .startE n _ =>
      match n with
      | "title" => .ok .Title scr []
      | "country" => .ok .Country scr []
      | "released" => .ok .Released scr []
      | "notes" => .ok .Notes scr []
      | "genres" => .ok .Genres scr []
      | "styles" => .ok .Styles scr []
      | "master_id" => .ok .MasterId scr []
      | "data_quality" => .ok .DataQuality scr []
      | "labels" => .ok .Labels scr []
      | "videos" => .ok .Videos scr []
      | _ => .ok .Release scr []
    | .endE "release" =>
      .ok .Release scr
        [.commitParent scr.current_id scr.current_release, .flushIfFull]
    | .endE "releases" => .ok .Release scr [.flushRemainder]
    | _ => .ok .Release scr []
  | .Title =>
    match ev with
    | .textE s =>
      .ok .Title
        { scr with current_release := { scr.current_release with title := s } } []
    | .endE "title" => .ok .Release scr []
    | _ => .ok .Title scr []
  | .Country =>
    match ev with
    | .textE s =>
      .ok .Country
        { scr with current_release := { scr.current_release with country := s } } []
    | .endE "country" => .ok .Release scr []
    | _ => .ok .Country scr []
  | .Released =>
    match ev with
    | .textE s =>
      .ok .Released
        { scr with current_release := { scr.current_release with released := s } } []
    | .endE "released" => .ok .Release scr []
    | _ => .ok .Released scr []
  | .Notes =>
    match ev with
    | .textE s =>
      .ok .Notes
        { scr with current_release := { scr.current_release with notes := s } } []
    | .endE "notes" => .ok .Release scr []
    | _ => .ok .Notes scr []
  | .Genres =>
    match ev with
    | .startE "genre" _ => .ok .Genre scr []
    | .endE "genres" => .ok .Release scr []
    | _ => .ok .Genres scr []
  | .Genre =>
    match ev with
    | .textE s =>
      .ok .Genres
        { scr with
          current_release :=
            { scr.current_release with genres := scr.current_release.genres ++ [s] } }
        []
    | _ => .ok .Genres scr []
  | .Styles =>
    match ev with
    | .startE "style" _ => .ok .Style scr []
    | .endE "styles" => .ok .Release scr []
    | _ => .ok .Styles scr []
  | .Style =>
    match ev with
    | .textE s =>
      .ok .Styles
        { scr with
          current_release :=
            { scr.current_release with styles := scr.current_release.styles ++ [s] } }
        []
    | _ => .ok .Styles scr []
  | .MasterId =>
    match ev with
    | .textE s =>
      match parseI32 s with
      | none => .errT scr
      | some i =>
        .ok .MasterId
          { scr with current_release := { scr.current_release with master_id := i } } []
    | .endE "master_id" => .ok .Release scr []
    | _ => .ok .MasterId scr []
  | .DataQuality =>
    match ev with
    | .textE s =>
      .ok .DataQuality
        { scr with
          current_release := { scr.current_release with data_quality := s } } []
    | .endE "data_quality" => .ok .Release scr []
    | _ => .ok .DataQuality scr []
  | .Labels =>
    match ev with
    | .emptyE _ attrs =>
      match attrs.get? 2 with
      | none => .panicT scr
      | some kv =>
        match parseI32 kv with
        | none => .errT scr
        | some k =>
          match attrs.get? 0 with
          | none => .panicT scr
          | some lv =>
            match attrs.get? 1 with
            | none => .panicT scr
            | some cv =>
              .ok .Labels scr
                [.commitLabel k
                  { release_id := scr.current_release.id, label := lv
                    catno := cv, label_id := k }]
    | .endE "labels" => .ok .Release scr []
    | _ => .ok .Labels scr []
  | .Videos =>
    match ev with
    | .startE "video" attrs =>
      match attrs.get? 1 with
      | none => .panicT scr
      | some dv =>
        match parseI32 dv with
        | none => .errT scr
        | some d =>
          match attrs.get? 0 with
          | none => .panicT scr
          | some sv =>
            .ok .Videos { scr with current_video_id := scr.current_video_id + 1 }
              [.commitVideo scr.current_video_id
                { release_id := scr.current_release.id, duration := d
                  src := sv, title := "" }]
    | .endE "videos" => .ok .Release scr []
    | _ => .ok .Videos scr []

/-- `ReleasesParser` (release.rs): state machine state, the three
accumulation maps, the scratch data, plus the model-side observations:
`written` (the `write_releases` calls made so far), `trace` (the commit
attempts offered to the sink) and `halted` (abnormal termination of a
`process` call; once set, further events are not processed — the real
program aborts). -/
structure ReleasesParser where
  state : RState
  scratch : RScratch
  releases : List (Int × Release)
  release_labels : List (Int × ReleaseLabel)
  release_videos : List (Int × ReleaseVideo)
  written : List FlushCall
  trace : List CommitOp
  halted : Option Halt
deriving DecidableEq, Repr

/-- `ReleasesParser::new`. -/
def ReleasesParser.init : ReleasesParser :=
  { state := .Release
    scratch :=
      { current_release := Release.new, current_id := 0, current_video_id := 0 }
    releases := [], release_labels := [], release_videos := []
    written := [], trace := [], halted := none }

/-- Apply one sink effect.  `flushIfFull` is the in-band batch check of
`End(release)` — when the parent map has reached `batch_size` it performs
one `write_releases` call and replaces all three maps by fresh empty ones;
`flushRemainder` is the `End(releases)` call, which writes the maps but
does not clear them (release.rs lines 205-214). -/
def applyEff (B : Nat) (p : ReleasesParser) : REff → ReleasesParser
  | .commitParent k r =>
    { p with releases := insertIfAbsent k r p.releases
             trace := p.trace ++ [.parent k r] }
  | .commitLabel k r =>
    { p with release_labels := insertIfAbsent k r p.release_labels
             trace := p.trace ++ [.labelC k r] }
  | .commitVideo k r =>
    { p with release_videos := insertIfAbsent k r p.release_videos
             trace := p.trace ++ [.videoC k r] }
  | .flushIfFull =>
    if B ≤ p.releases.length then
      { p with
        written := p.written ++
          [{ releaseRows := valsA p.releases
             labelRows := valsA p.release_labels
             videoRows := valsA p.release_videos }]
        releases := [], release_labels := [], release_videos := [] }
    else p
  | .flushRemainder =>
    { p with
      written := p.written ++
        [{ releaseRows := valsA p.releases
           labelRows := valsA p.release_labels
           videoRows := valsA p.release_videos }] }

/-- One `ReleasesParser::process(ev)` call with batch size `B`.  On an
abnormal halt the state variable keeps its old value (the Rust
`self.state = match ...` assignment is skipped by the early return) while
the scratch keeps partial writes. -/
def processR (B : Nat) (p : ReleasesParser) (ev : XEvent) : ReleasesParser :=
  match p.halted with
  | some _ => p
  | none =>
    match transitionR p.state p.scratch ev with
    | .ok s scr effs =>
      effs.foldl (applyEff B) { p with state := s, scratch := scr }
    | .errT scr => { p with scratch := scr, halted := some .errH }
    | .panicT scr => { p with scratch := scr, halted := some .panicH }

/-- Run the event loop of main.rs over a list of events. -/
def runRFrom (B : Nat) (p : ReleasesParser) (evs : List XEvent) : ReleasesParser :=
  evs.foldl (processR B) p

/-- Run from the initial parser. -/
def runR (B : Nat) (evs : List XEvent) : ReleasesParser :=
  runRFrom B ReleasesParser.init evs

/-- The batch-size-independent face of the release parser: state machine
state, scratch data, commit-attempt trace and halt flag, with the sink
(maps, batch counter, flushes) erased.  Its step applies the same
`transitionR`; it records commit attempts but no map contents. -/
structure RSim where
  state : RState
  scratch : RScratch
  trace : List CommitOp
  halted : Option Halt
deriving DecidableEq, Repr

/-- Commit attempt denoted by a sink effect, if any. -/
def commitOpOf : REff → Option CommitOp
  | .commitParent k r => some (.parent k r)
  | .commitLabel k r => some (.labelC k r)
  | .commitVideo k r => some (.videoC k r)
  | .flushIfFull => none
  | .flushRemainder => none

/-- One step of the sink-erased release parser. -/
def simStepR (s : RSim) (ev : XEvent) : RSim :=
  match s.halted with
  | some _ => s
  | none =>
    match transitionR s.state s.scratch ev with
    | .ok st scr effs =>
      { state := st, scratch := scr
        trace := s.trace ++ effs.filterMap commitOpOf, halted := none }
    | .errT scr => { s with scratch := scr, halted := some .errH }
    | .panicT scr => { s with scratch := scr, halted := some .panicH }

/-- Initial sink-erased parser. -/
def RSim.init : RSim :=
  { state := .Release
    scratch :=
      { current_release := Release.new, current_id := 0, current_video_id := 0 }
    trace := [], halted := none }

/-- Sink-erased run. -/
def simRFrom (s : RSim) (evs : List XEvent) : RSim :=
  evs.foldl simStepR s

/-- Sink-erased run from the initial state. -/
def simR (evs : List XEvent) : RSim :=
  simRFrom RSim.init evs

/-- Parent rows named by a commit trace. -/
def parentRowsOf (t : List CommitOp) : List Release :=
  t.filterMap fun op =>
    match op with
    | .parent _ r => some r
    | _ => none

/-- Release-label rows named by a commit trace. -/
def labelRowsOf (t : List CommitOp) : List ReleaseLabel :=
  t.filterMap fun op =>
    match op with
    | .labelC _ r => some r
    | _ => none

/-- Release-video rows named by a commit trace. -/
def videoRowsOf (t : List CommitOp) : List ReleaseVideo :=
  t.filterMap fun op =>
    match op with
    | .videoC _ r => some r
    | _ => none

/-- Parent keys of a commit trace. -/
def parentKeysOf (t : List CommitOp) : List Int :=
  t.filterMap fun op =>
    match op with
    | .parent k _ => some k
    | _ => none

/-- Release-label keys of a commit trace. -/
def labelKeysOf (t : List CommitOp) : List Int :=
  t.filterMap fun op =>
    match op with
    | .labelC k _ => some k
    | _ => none

/-- Release-video keys of a commit trace. -/
def videoKeysOf (t : List CommitOp) : List Int :=
  t.filterMap fun op =>
    match op with
    | .videoC k _ => some k
    | _ => none

/-- All parent rows a run handed to the bulk writer, across its flushes. -/
def writtenParentRows (p : ReleasesParser) : List Release :=
  (p.written.map FlushCall.releaseRows).flatten

/-- All release-label rows a run handed to the bulk writer. -/
def writtenLabelRows (p : ReleasesParser) : List ReleaseLabel :=
  (p.written.map FlushCall.labelRows).flatten

/-- All release-video rows a run handed to the bulk writer. -/
def writtenVideoRows (p : ReleasesParser) : List ReleaseVideo :=
  (p.written.map FlushCall.videoRows).flatten

/-! ## Artist family (src/discogs-load/src/artist.rs) -/

/-- `Artist` row (artist.rs, struct Artist). -/
structure Artist where
  id : Int
  name : String
  real_name : String
  profile : String
  data_quality : String
  name_variations : List String
  urls : List String
  aliases : List String
  members : List String
deriving DecidableEq, Repr

/-- `Artist::new()`. -/
def Artist.new : Artist :=
  { id := 0, name := "", real_name := "", profile := "", data_quality := ""
    name_variations := [], urls := [], aliases := [], members := [] }

/-- `ParserState` of artist.rs. -/
inductive AState where
  | Artist
  | Id
  | Name
  | RealName
  | Profile
  | DataQuality
  | NameVariations
  | Url
  | Urls
  | Alias
  | Aliases
  | Member
  | Members
deriving DecidableEq, Repr

/-- `ArtistsParser` (artist.rs) with the modelled sink observations:
`written` is the list of `write_artists` calls (each one row list), and
`halted` records an abnormal `process` outcome. -/
structure ArtistsParser where
  state : AState
  artists : List (Int × Artist)
  current_artist : Artist
  written : List (List Artist)
  halted : Option Halt
deriving DecidableEq, Repr

/-- `ArtistsParser::new`. -/
def ArtistsParser.init : ArtistsParser :=
  { state := .Artist, artists := [], current_artist := Artist.new
    written := [], halted := none }

/-- One `ArtistsParser::process(ev)` call (artist.rs, lines 102-267),
branch for branch.  Noteworthy source behaviours kept by the model:
`Start(artist)` clears only the four collection fields; in the `Urls` and
`Aliases` states the catch-all arm returns to the `Artist` state; `Alias`
and `Member` text are both extended onto `members`; the `NameVariations`
state has no arm of its own and falls to the trailing catch-all, which
yields the `Members` state. -/
def processA (B : Nat) (p : ArtistsParser) (ev : XEvent) : ArtistsParser :=
  match p.halted with
  | some _ => p
  | none =>
    match p.state with
    | .Artist =>
      match ev with
      | .startE "artist" _ =>
        { p with state := .Artist
                 current_artist :=
                   { p.current_artist with
                     name_variations := [], urls := [], aliases := [], members := [] } }
      | .startE n _ =>
        match n with
        | "id" => { p with state := .Id }
        | "name" => { p with state := .Name }
        | "realname" => { p with state := .RealName }
        | "profile" => { p with state := .Profile }
        | "data_quality" => { p with state := .DataQuality }
        | "urls" => { p with state := .Urls }
        | "namevariations" => { p with state := .NameVariations }
        | "aliases" => { p with state := .Aliases }
        | "members" => { p with state := .Members }
        | _ => { p with state := .Artist }
      | .endE "artist" =>
        let m := insertIfAbsent p.current_artist.id p.current_artist p.artists
        if B ≤ m.length then
          { p with state := .Artist, artists := []
                   written := p.written ++ [valsA m] }
        else
          { p with state := .Artist, artists := m }
      | .endE "artists" =>
        { p with state := .Artist, written := p.written ++ [valsA p.artists] }
      | _ => { p with state := .Artist }
    | .Id =>
      match ev with
      | .textE s =>
        match parseI32 s with
        | none => { p with halted := some .errH }
        | some i =>
          { p with state := .Id
                   current_artist := { p.current_artist with id := i } }
      | .endE "id" => { p with state := .Artist }
      | _ => { p with state := .Id }
    | .Name =>
      match ev with
      | .textE s =>
        { p with state := .Name
                 current_artist := { p.current_artist with name := s } }
      | .endE "name" => { p with state := .Artist }
      | _ => { p with state := .Name }
    | .RealName =>
      match ev with
      | .textE s =>
        { p with state := .RealName
                 current_artist := { p.current_artist with real_name := s } }
      | .endE "realname" => { p with state := .Artist }
      | _ => { p with state := .RealName }
    | .Profile =>
      match ev with
      | .textE s =>
        { p with state := .Profile
                 current_artist := { p.current_artist with profile := s } }
      | .endE "profile" => { p with state := .Artist }
      | _ => { p with state := .Profile }
    | .DataQuality =>
      match ev with
      | .textE s =>
        { p with state := .DataQuality
                 current_artist := { p.current_artist with data_quality := s } }
      | .endE "data_quality" => { p with state := .Artist }
      | _ => { p with state := .DataQuality }
    | .Urls =>
      match ev with
      | .startE "url" _ => { p with state := .Url }
      | .endE "urls" => { p with state := .Artist }
      | _ => { p with state := .Artist }
    | .Url =>
      match ev with
      | .textE s =>
        { p with state := .Urls
                 current_artist :=
                   { p.current_artist with urls := p.current_artist.urls ++ [s] } }
      | _ => { p with state := .Urls }
    | .Aliases =>
      match ev with
      | .startE "alias" _ => { p with state := .Alias }
      | .endE "aliases" => { p with state := .Artist }
      | _ => { p with state := .Artist }
    | .Alias =>
      match ev with
      | .textE s =>
        { p with state := .Aliases
                 current_artist :=
                   { p.current_artist with members := p.current_artist.members ++ [s] } }
      | _ => { p with state := .Aliases }
    | .Members =>
      match ev with
      | .startE "member" _ => { p with state := .Member }
      | .endE "members" => { p with state := .Artist }
      | _ => { p with state := .Artist }
    | .Member =>
      match ev with
      | .textE s =>
        { p with state := .Members
                 current_artist :=
                   { p.current_artist with members := p.current_artist.members ++ [s] } }
      | _ => { p with state := .Members }
    | .NameVariations => { p with state := .Members }

/-- Artist event loop from the initial parser. -/
def runA (B : Nat) (evs : List XEvent) : ArtistsParser :=
  evs.foldl (processA B) ArtistsParser.init

/-! ## Master family (src/discogs-load/src/master.rs) -/

/-- `Master` row (master.rs, struct Master). -/
structure Master where
  id : Int
  title : String
  release_id : Int
  year : Int
  notes : String
  genres : List String
  styles : List String
  data_quality : String
deriving DecidableEq, Repr

/-- `Master::new()`. -/
def Master.new : Master :=
  { id := 0, title := "", release_id := 0, year := 0, notes := ""
    genres := [], styles := [], data_quality := "" }

/-- `MasterArtist` row (master.rs, struct MasterArtist). -/
structure MasterArtist where
  id : Int
  master_id : Int
  name : String
  anv : String
  role : String
deriving DecidableEq, Repr

/-- `MasterArtist::new()`. -/
def MasterArtist.new : MasterArtist :=
  { id := 0, master_id := 0, name := "", anv := "", role := "" }

/-- `ParserReadState` of master.rs. -/
inductive MState where
  | Master
  | MainRelease
  | Artists
  | Title
  | DataQuality
  | ArtistId
  | ArtistName
  | ArtistAnv
  | ArtistRole
deriving DecidableEq, Repr

/-- One call of `write_masters` (db.rs): parent rows first, then the
`master_artist` rows, on one connection. -/
structure MFlushCall where
  masterRows : List Master
  masterArtistRows : List MasterArtist
deriving DecidableEq, Repr

/-- `MastersParser` (master.rs) with the modelled sink observations. -/
structure MastersParser where
  state : MState
  masters : List (Int × Master)
  current_master : Master
  current_artist : MasterArtist
  current_master_id : Int
  master_artists : List (Int × MasterArtist)
  written : List MFlushCall
  halted : Option Halt
deriving DecidableEq, Repr

/-- `MastersParser::new`. -/
def MastersParser.init : MastersParser :=
  { state := .Master, masters := [], current_master := Master.new
    current_artist := MasterArtist.new, current_master_id := 0
    master_artists := [], written := [], halted := none }

/-- One `MastersParser::process(ev)` call (master.rs, lines 135-288),
branch for branch.  In `Start(master)` the collections are cleared before
the id attribute (`attributes().next().unwrap()`) is read, as in the
source; `End(artist)` inside `Artists` commits the current child under
the monotonically increasing `current_master_id` counter. -/
def processM (B : Nat) (p : MastersParser) (ev : XEvent) : MastersParser :=
  match p.halted with
  | some _ => p
  | none =>
    match p.state with
    | .Master =>
      match ev with
      | .startE "master" attrs =>
        let p1 :=
          { p with current_master :=
              { p.current_master with genres := [], styles := [] } }
        match attrs.get? 0 with
        | none => { p1 with halted := some .panicH }
        | some idv =>
          match parseI32 idv with
          | none => { p1 with halted := some .errH }
          | some i =>
            { p1 with state := .Master
                      current_master := { p1.current_master with id := i } }
      | .startE n _ =>
        match n with
        | "main_release" => { p with state := .MainRelease }
        | "title" => { p with state := .Title }
        | "artists" => { p with state := .Artists }
        | "data_quality" => { p with state := .DataQuality }
        | _ => { p with state := .Master }
      | .endE "master" =>
        let m := insertIfAbsent p.current_master.id p.current_master p.masters
        if B ≤ m.length then
          { p with state := .Master, masters := [], master_artists := []
                   written := p.written ++
                     [{ masterRows := valsA m
                        masterArtistRows := valsA p.master_artists }] }
        else
          { p with state := .Master, masters := m }
      | .endE "masters" =>
        { p with state := .Master
                 written := p.written ++
                   [{ masterRows := valsA p.masters
                      masterArtistRows := valsA p.master_artists }] }
      | _ => { p with state := .Master }
    | .MainRelease =>
      match ev with
      | .textE s =>
        match parseI32 s with
        | none => { p with halted := some .errH }
        | some i =>
          { p with state := .MainRelease
                   current_master := { p.current_master with release_id := i } }
      | .endE "main_release" => { p with state := .Master }
      | _ => { p with state := .MainRelease }
    | .Artists =>
      match ev with
      | .startE n _ =>
        match n with
        | "artist" =>
          { p with state := .Artists
                   current_artist :=
                     { MasterArtist.new with master_id := p.current_master.id } }
        | "id" => { p with state := .ArtistId }
        | "name" => { p with state := .ArtistName }
        | "anv" => { p with state := .ArtistAnv }
        | "role" => { p with state := .ArtistRole }
        | _ => { p with state := .Artists }
      | .endE n =>
        match n with
        | "artist" =>
          { p with state := .Artists
                   master_artists :=
                     insertIfAbsent p.current_master_id p.current_artist
                       p.master_artists
                   current_master_id := p.current_master_id + 1 }
        | "artists" => { p with state := .Master }
        | _ => { p with state := .Artists }
      | _ => { p with state := .Artists }
    | .ArtistId =>
      match ev with
      | .textE s =>
        match parseI32 s with
        | none => { p with halted := some .errH }
        | some i =>
          { p with state := .Artists
                   current_artist := { p.current_artist with id := i } }
      | .endE "id" => { p with state := .Artists }
      | _ => { p with state := .ArtistId }
    | .ArtistName =>
      match ev with
      | .textE s =>
        { p with state := .Artists
                 current_artist := { p.current_artist with name := s } }
      | .endE "name" => { p with state := .Artists }
      | _ => { p with state := .ArtistName }
    | .ArtistAnv =>
      match ev with
      | .textE s =>
        { p with state := .Artists
                 current_artist := { p.current_artist with anv := s } }
      | .endE "anv" => { p with state := .Artists }
      | _ => { p with state := .ArtistAnv }
    | .ArtistRole =>
      match ev with
      | .textE s =>
        { p with state := .Artists
                 current_artist := { p.current_artist with role := s } }
      | .endE "role" => { p with state := .Artists }
      | _ => { p with state := .ArtistRole }
    | .Title =>
      match ev with
      | .textE s =>
        { p with state := .Title
                 current_master := { p.current_master with title := s } }
      | .endE "title" => { p with state := .Master }
      | _ => { p with state := .Title }
    | .DataQuality =>
      match ev with
      | .textE s =>
        { p with state := .DataQuality
                 current_master := { p.current_master with data_quality := s } }
      | .endE "data_quality" => { p with state := .Master }
      | _ => { p with state := .DataQuality }

/-- Master event loop from the initial parser. -/
def runM (B : Nat) (evs : List XEvent) : MastersParser :=
  evs.foldl (processM B) MastersParser.init

/-! ## Label row model and bulk-writer column lists (label.rs / db.rs) -/

/-- A typed value handed to the binary bulk-copy writer. -/
inductive SqlValue where
  | int4 (i : Int)
  | text (s : String)
  | textArray (l : List String)
deriving DecidableEq, Repr

/-- A bulk-copy column type (`postgres::types::Type`). -/
inductive SqlType where
  | int4T
  | textT
  | textArrayT
deriving DecidableEq, Repr

/-- `Label` row (label.rs, struct Label).  The source struct has no `id`
field; the parsed `<id>` text only feeds the `current_id` map key. -/
structure Label where
  name : String
  contactinfo : String
  profile : String
  parent_label : String
  sublabels : List String
  urls : List String
  data_quality : String
deriving DecidableEq, Repr

/-- `Label::new()`. -/
def Label.new : Label :=
  { name := "", contactinfo := "", profile := "", parent_label := ""
    sublabels := [], urls := [], data_quality := "" }

/-- `Label::to_sql` (label.rs, lines 20-33): the ordered value list handed
to the bulk writer for one label row. -/
def Label.to_sql (l : Label) : List SqlValue :=
  [.text l.name, .text l.contactinfo, .text l.profile, .text l.parent_label,
   .textArray l.sublabels, .textArray l.urls, .text l.data_quality]

/-- Column list of the `COPY label ... FROM STDIN BINARY` statement built
in `write_labels` (db.rs, line 106). -/
def labelCopyColumns : List String :=
  ["id", "name", "contactinfo", "profile", "parent_label", "sublabels",
   "urls", "data_quality"]

/-- Column types passed to the binary writer in `write_labels`
(db.rs, lines 107-116). -/
def labelCopyTypes : List SqlType :=
  [.int4T, .textT, .textT, .textT, .textT, .textArrayT, .textArrayT, .textT]

/-! ## Claim theorems -/

/-- Event stream of two artists: the first has id 1 and name "Alice", the
second only id 2 (no `<name>` element). -/
def evsStaleName : List XEvent :=
  [.startE "artists" [], .startE "artist" [],
   .startE "id" [], .textE "1", .endE "id",
   .startE "name" [], .textE "Alice", .endE "name",
   .endE "artist",
   .startE "artist" [],
   .startE "id" [], .textE "2", .endE "id",
   .endE "artist", .endE "artists"]

/-- Event stream of two releases: the first has title "T1", the second
(id 2) has no `<title>` element. -/
def evsStaleTitle : List XEvent :=
  [.startE "release" ["1", "S"],
   .startE "title" [], .textE "T1", .endE "title",
   .endE "release",
   .startE "release" ["2", "S"], .endE "release", .endE "releases"]

/-- C2: the claim says the current-record slot is fully reset at every
record-opening tag, so an absent subelement yields the type's default.
The code resets only the collection fields (artist.rs 106-112) and, for
releases, id/status/genres/styles (release.rs 157-168): scalar fields
bleed from the previous record.  Committed artist 2, whose `<name>` is
absent, carries the previous record's name "Alice" instead of the default
"", and committed release 2, whose `<title>` is absent, carries the
previous record's title "T1" instead of "". -/
theorem C2_stale_scalar_fields_bleed :
    (lookupA 2 (runA 100 evsStaleName).artists).map Artist.name = some "Alice"
      ∧ (lookupA 2 (runR 100 evsStaleTitle).releases).map Release.title
          = some "T1" := by
  constructor <;> decide

/-- Scenario S2 of the spec: one artist with id 7, name "Band" and two
urls. -/
def evsS2 : List XEvent :=
  [.startE "artists" [], .startE "artist" [],
   .startE "id" [], .textE "7", .endE "id",
   .startE "name" [], .textE "Band", .endE "name",
   .startE "urls" [], .startE "url" [], .textE "http://a", .endE "url",
   .startE "url" [], .textE "http://b", .endE "url", .endE "urls",
   .endE "artist", .endE "artists"]

/-- C3: the claim (spec scenario S2) expects the committed artist to carry
`urls = ["http://a", "http://b"]`.  In artist.rs the `Urls` state's
catch-all arm (line 211) returns to the `Artist` state, so the `End(url)`
event after the first url leaves the collection; the second `<url>`'s text
arrives in the `Artist` state and is ignored.  The committed record has
`urls = ["http://a"]`: exactly one artist is committed with id 7 and name
"Band", but the second url is dropped. -/
theorem C3_second_url_dropped :
    (runA 100 evsS2).artists
      = [(7, { id := 7, name := "Band", real_name := "", profile := ""
               data_quality := "", name_variations := [], urls := ["http://a"]
               aliases := [], members := [] })] := by
  decide

/-- C4: the claim says `Label::to_sql` yields one value per declared
column of the `label` table, the first being the record's id as int32.
The source `Label` struct (label.rs) has no id field at all: `to_sql`
returns 7 values, the first being the `name` text, while `write_labels`
(db.rs 99-120) declares 8 columns and 8 column types beginning with
`id:int32`.  Every label flush therefore hands the binary writer a row one
value short and misaligned with the declared types. -/
theorem C4_label_row_shape_mismatch :
    ∀ l : Label,
      (Label.to_sql l).length = 7
        ∧ labelCopyColumns.length = 8
        ∧ labelCopyTypes.length = 8
        ∧ (Label.to_sql l).head? = some (SqlValue.text l.name)
        ∧ labelCopyColumns.head? = some "id"
        ∧ labelCopyTypes.head? = some SqlType.int4T := by
  intro l
  refine ⟨rfl, rfl, rfl, rfl, rfl, rfl⟩

/-- Two releases, each carrying one `<label .../>` child whose positional
`id` attribute (index 2) is 9 — two distinct release-label rows. -/
def evsLabelCollision : List XEvent :=
  [.startE "release" ["1", "S"], .startE "labels" [],
   .emptyE "label" ["LN", "C1", "9"], .endE "labels", .endE "release",
   .startE "release" ["2", "S"], .startE "labels" [],
   .emptyE "label" ["LN2", "C2", "9"], .endE "labels", .endE "release"]

/-- C6: the claim says every child-row commit — including `release_label`
— is stored under a per-parser monotonically increasing synthetic key, so
distinct insertions are never dropped.  In release.rs (lines 325-343) the
`release_labels` map is keyed by the `label_id` parsed from the XML
attribute, not by a counter: of the two distinct release-label rows above
(for releases 1 and 2, both naming label 9) only the first survives in the
batch, although both commits were offered (the trace has both rows).
`release_video` and `master_artist` do use monotonic counters; the claim
fails on `release_label`. -/
theorem C6_release_label_key_collision :
    (runR 100 evsLabelCollision).release_labels
        = [(9, { release_id := 1, label := "LN", catno := "C1", label_id := 9 })]
      ∧ (labelRowsOf (runR 100 evsLabelCollision).trace).length = 2 := by
  constructor <;> decide

/-- One artist whose XML has an `<aliases><alias>` subtree with text "A1"
and a `<namevariations><name>` subtree with text "NV". -/
def evsAlias : List XEvent :=
  [.startE "artists" [], .startE "artist" [],
   .startE "id" [], .textE "1", .endE "id",
   .startE "aliases" [], .startE "alias" [], .textE "A1", .endE "alias",
   .endE "aliases",
   .startE "namevariations" [], .startE "name" [], .textE "NV", .endE "name",
   .endE "namevariations",
   .endE "artist", .endE "artists"]

/-- C8: the claim says alias text is appended to the `aliases` array and
name-variation text to `name_variations`.  In artist.rs the `Alias` state
(lines 233-242) extends `members`, not `aliases`, and the
`NameVariations` state has no arm (the trailing catch-all sends it to the
`Members` state), so name-variation text is appended nowhere.  The
committed record has `members = ["A1"]`, `aliases = []` and
`name_variations = []`. -/
theorem C8_alias_text_goes_to_members :
    (lookupA 1 (runA 100 evsAlias).artists).map Artist.members = some ["A1"]
      ∧ (lookupA 1 (runA 100 evsAlias).artists).map Artist.aliases = some []
      ∧ (lookupA 1 (runA 100 evsAlias).artists).map Artist.name_variations
          = some [] := by
  refine ⟨by decide, by decide, by decide⟩

/-! ### Helper lemmas about the sink-effect interpreter -/

theorem applyEff_halted (B : Nat) (p : ReleasesParser) (e : REff) :
    (applyEff B p e).halted = p.halted := by
  cases e <;> simp [applyEff] <;> split <;> rfl

theorem foldl_applyEff_halted (B : Nat) (effs : List REff) (p : ReleasesParser) :
    (effs.foldl (applyEff B) p).halted = p.halted := by
  induction effs generalizing p with
  | nil => rfl
  | cons e t ih => rw [List.foldl_cons, ih, applyEff_halted]

theorem applyEff_state (B : Nat) (p : ReleasesParser) (e : REff) :
    (applyEff B p e).state = p.state := by
  cases e <;> simp [applyEff] <;> split <;> rfl

theorem foldl_applyEff_state (B : Nat) (effs : List REff) (p : ReleasesParser) :
    (effs.foldl (applyEff B) p).state = p.state := by
  induction effs generalizing p with
  | nil => rfl
  | cons e t ih => rw [List.foldl_cons, ih, applyEff_state]

theorem applyEff_scratch (B : Nat) (p : ReleasesParser) (e : REff) :
    (applyEff B p e).scratch = p.scratch := by
  cases e <;> simp [applyEff] <;> split <;> rfl

theorem foldl_applyEff_scratch (B : Nat) (effs : List REff) (p : ReleasesParser) :
    (effs.foldl (applyEff B) p).scratch = p.scratch := by
  induction effs generalizing p with
  | nil => rfl
  | cons e t ih => rw [List.foldl_cons, ih, applyEff_scratch]

theorem applyEff_trace (B : Nat) (p : ReleasesParser) (e : REff) :
    (applyEff B p e).trace = p.trace ++ (commitOpOf e).toList := by
  cases e <;> simp [applyEff, commitOpOf] <;> split <;> rfl

theorem foldl_applyEff_trace (B : Nat) (effs : List REff) (p : ReleasesParser) :
    (effs.foldl (applyEff B) p).trace = p.trace ++ effs.filterMap commitOpOf := by
  induction effs generalizing p with
  | nil => simp
  | cons e t ih =>
    rw [List.foldl_cons, ih, applyEff_trace]
    cases e <;> simp [commitOpOf]

/-- A single release followed by the family end tag. -/
def evsEndFlush : List XEvent :=
  [.startE "release" ["1", "A"], .endE "release", .endE "releases"]

/-- C5 counterexample: the claim says that after every flush — including
the unconditional one at `End(releases)` — all maps of the family are
empty.  Running the release parser (batch size 10) over one release and
the closing family tag performs exactly one flush (the end-of-stream one,
release.rs lines 205-214), yet afterwards the parent map still holds the
release: the end-of-stream path writes the maps without clearing them. -/
theorem C5_end_flush_leaves_maps_filled :
    (runR 10 evsEndFlush).written.length = 1
      ∧ (runR 10 evsEndFlush).releases ≠ [] := by
  constructor <;> decide

/-- C5 amended: every flush performs one `write_releases` call, writing
the three tables once each on that call's single connection, parent rows
first, then `release_label`, then `release_video` rows (the `FlushCall`
value); the flush triggered inside `End(release)` when the parent map
reaches the batch size afterwards leaves all three maps empty, while the
unconditional flush at `End(releases)` writes the same way but leaves all
three maps unchanged (it does not clear them). -/
theorem C5_flush_postcondition_amended (B : Nat) (p : ReleasesParser)
    (hh : p.halted = none) (hs : p.state = RState.Release)
    (hnew : lookupA p.scratch.current_id p.releases = none)
    (hfull : B ≤ p.releases.length + 1) :
    ((processR B p (.endE "release")).written
        = p.written ++
          [{ releaseRows := valsA p.releases ++ [p.scratch.current_release]
             labelRows := valsA p.release_labels
             videoRows := valsA p.release_videos }]
      ∧ (processR B p (.endE "release")).releases = []
      ∧ (processR B p (.endE "release")).release_labels = []
      ∧ (processR B p (.endE "release")).release_videos = [])
    ∧ ((processR B p (.endE "releases")).written
        = p.written ++
          [{ releaseRows := valsA p.releases
             labelRows := valsA p.release_labels
             videoRows := valsA p.release_videos }]
      ∧ (processR B p (.endE "releases")).releases = p.releases
      ∧ (processR B p (.endE "releases")).release_labels = p.release_labels
      ∧ (processR B p (.endE "releases")).release_videos = p.release_videos) := by
  constructor
  · simp only [processR, hh, hs, transitionR]
    simp [applyEff, insertIfAbsent, hnew, valsA]
    rw [if_pos]
    · simp
    · simpa using hfull
  · simp [processR, hh, hs, transitionR, applyEff]

/-- C5 witness: the amended flush postcondition applied to a concrete
parser holding one accumulated release, with batch size 2 reached by the
commit of the current release (id 1). -/
theorem C5_flush_postcondition_amended_witness :
    ((processR 2
        { ReleasesParser.init with releases := [(2, Release.new)] }
        (.endE "release")).releases = []
      ∧ (processR 2
          { ReleasesParser.init with releases := [(2, Release.new)] }
          (.endE "releases")).releases = [(2, Release.new)]) :=
  ⟨(C5_flush_postcondition_amended 2
      { ReleasesParser.init with releases := [(2, Release.new)] }
      rfl rfl (by decide) (by decide)).1.2.1,
   (C5_flush_postcondition_amended 2
      { ReleasesParser.init with releases := [(2, Release.new)] }
      rfl rfl (by decide) (by decide)).2.2.1⟩

/-- C7: first-write-wins deduplication, confirmed.  If the current record's
primary key is already present in the batch map (a previous record with
the same id was committed into the same, not-yet-flushed batch), then the
record-closing event leaves the map unchanged — the stored first
occurrence keeps its field values and the new occurrence is silently
dropped (`entry(id).or_insert` in release.rs line 184-187 and artist.rs
line 127-130), no flush happens, and nothing extra is written. -/
theorem C7_first_write_wins (B : Nat) (p : ReleasesParser) (q : ArtistsParser)
    (r : Release) (a : Artist)
    (hh : p.halted = none) (hs : p.state = RState.Release)
    (hdup : lookupA p.scratch.current_id p.releases = some r)
    (hb : p.releases.length < B)
    (hh' : q.halted = none) (hs' : q.state = AState.Artist)
    (hdup' : lookupA q.current_artist.id q.artists = some a)
    (hb' : q.artists.length < B) :
    ((processR B p (.endE "release")).releases = p.releases
      ∧ (processR B p (.endE "release")).written = p.written
      ∧ (processR B p (.endE "release")).halted = none)
    ∧ ((processA B q (.endE "artist")).artists = q.artists
      ∧ (processA B q (.endE "artist")).written = q.written
      ∧ (processA B q (.endE "artist")).halted = none) := by
  constructor
  · simp only [processR, hh, hs, transitionR]
    simp [applyEff, insertIfAbsent, hdup]
    rw [if_neg (by omega)]
    simp
  · simp only [processA, hh', hs']
    simp [insertIfAbsent, hdup']
    rw [if_neg (by omega)]
    simp

/-- C7 witness: a release parser whose batch already holds id 5 with title
"first" while the scratch record carries the same id with title "second",
and the artist analogue: the duplicate commits change neither map. -/
theorem C7_first_write_wins_witness :
    (processR 10
        { ReleasesParser.init with
          releases := [(5, { Release.new with id := 5, title := "first" })]
          scratch :=
            { current_release := { Release.new with id := 5, title := "second" }
              current_id := 5, current_video_id := 0 } }
        (.endE "release")).releases
      = [(5, { Release.new with id := 5, title := "first" })]
    ∧ (processA 10
        { ArtistsParser.init with
          artists := [(3, { Artist.new with id := 3, name := "first" })]
          current_artist := { Artist.new with id := 3, name := "second" } }
        (.endE "artist")).artists
      = [(3, { Artist.new with id := 3, name := "first" })] :=
  ⟨(C7_first_write_wins 10
      { ReleasesParser.init with
        releases := [(5, { Release.new with id := 5, title := "first" })]
        scratch :=
          { current_release := { Release.new with id := 5, title := "second" }
            current_id := 5, current_video_id := 0 } }
      { ArtistsParser.init with
        artists := [(3, { Artist.new with id := 3, name := "first" })]
        current_artist := { Artist.new with id := 3, name := "second" } }
      { Release.new with id := 5, title := "first" }
      { Artist.new with id := 3, name := "first" }
      rfl rfl (by decide) (by decide) rfl rfl (by decide) (by decide)).1.1,
   (C7_first_write_wins 10
      { ReleasesParser.init with
        releases := [(5, { Release.new with id := 5, title := "first" })]
        scratch :=
          { current_release := { Release.new with id := 5, title := "second" }
            current_id := 5, current_video_id := 0 } }
      { ArtistsParser.init with
        artists := [(3, { Artist.new with id := 3, name := "first" })]
        current_artist := { Artist.new with id := 3, name := "second" } }
      { Release.new with id := 5, title := "first" }
      { Artist.new with id := 3, name := "first" }
      rfl rfl (by decide) (by decide) rfl rfl (by decide) (by decide)).2.1⟩

/-- C9 counterexample: the claim says a record-opening event with fewer
positional attributes than the parser reads makes `process` return an
error that propagates to the caller and is never an unguarded panicking
branch.  Processing `Start(release)` with only one attribute from the
initial release parser hits `attributes().nth(1).unwrap()` (release.rs
line 159) on `None`: the outcome is the panic, not an `Err` return. -/
theorem C9_missing_attribute_is_a_panic :
    (processR 10 ReleasesParser.init (.startE "release" ["10"])).halted
        = some Halt.panicH
      ∧ (processR 10 ReleasesParser.init (.startE "release" ["10"])).halted
        ≠ some Halt.errH := by
  constructor <;> decide

/-- C9 amended: for every record-opening or child event that carries fewer
positional attributes than the parser reads — `Start(release)` needs 2,
`Empty(<any>)` in the Labels state needs 3, `Start(video)` in the Videos
state needs 2, `Start(master)` needs 1 — `process` aborts the load, but
through the `unwrap()` panic on the missing attribute, not through an
error return propagated to the caller. -/
theorem C9_missing_attribute_aborts_amended (B : Nat) :
    (∀ (p : ReleasesParser) (attrs : List String),
      p.halted = none → p.state = RState.Release → attrs.length < 2 →
      (processR B p (.startE "release" attrs)).halted = some Halt.panicH)
    ∧ (∀ (p : ReleasesParser) (n : String) (attrs : List String),
      p.halted = none → p.state = RState.Labels → attrs.length < 3 →
      (processR B p (.emptyE n attrs)).halted = some Halt.panicH)
    ∧ (∀ (p : ReleasesParser) (attrs : List String),
      p.halted = none → p.state = RState.Videos → attrs.length < 2 →
      (processR B p (.startE "video" attrs)).halted = some Halt.panicH)
    ∧ (∀ (q : MastersParser) (attrs : List String),
      q.halted = none → q.state = MState.Master → attrs.length < 1 →
      (processM B q (.startE "master" attrs)).halted = some Halt.panicH) := by
  refine ⟨?_, ?_, ?_, ?_⟩
  · intro p attrs hh hs hlen
    match attrs with
    | [] => simp [processR, hh, hs, transitionR]
    | [a] => simp [processR, hh, hs, transitionR]
    | a :: b :: t => simp at hlen; omega
  · intro p n attrs hh hs hlen
    match attrs with
    | [] => simp [processR, hh, hs, transitionR]
    | [a] => simp [processR, hh, hs, transitionR]
    | [a, b] => simp [processR, hh, hs, transitionR]
    | a :: b :: c :: t => simp at hlen; omega
  · intro p attrs hh hs hlen
    match attrs with
    | [] => simp [processR, hh, hs, transitionR]
    | [a] => simp [processR, hh, hs, transitionR]
    | a :: b :: t => simp at hlen; omega
  · intro q attrs hh hs hlen
    match attrs with
    | [] => simp [processM, hh, hs]
    | a :: t => simp at hlen

/-- C9 witness: the amended abort behaviour at concrete inputs — an empty
release-label tag with two of its three attributes in the Labels state,
and a master opening tag with no attributes. -/
theorem C9_missing_attribute_aborts_amended_witness :
    (processR 10 { ReleasesParser.init with state := RState.Labels }
        (.emptyE "label" ["LN", "C1"])).halted = some Halt.panicH
    ∧ (processM 10 MastersParser.init (.startE "master" [])).halted
        = some Halt.panicH :=
  ⟨(C9_missing_attribute_aborts_amended 10).2.1
      { ReleasesParser.init with state := RState.Labels } "label" ["LN", "C1"]
      rfl rfl (by decide),
   (C9_missing_attribute_aborts_amended 10).2.2.2
      MastersParser.init [] rfl rfl (by decide)⟩

/-- C10 counterexample: the claim says an error return from `process` has
no observable effect on the parser.  In `Start(release)` the code assigns
`status` from attribute 1 before parsing attribute 0 as the id
(release.rs lines 158-163): processing `Start(release)` with attributes
`["x", "S1"]` from the initial parser returns the id parse error, yet the
scratch record's `status` — previously `""` — has been overwritten with
"S1". -/
theorem C10_partial_write_survives_error :
    (processR 10 ReleasesParser.init (.startE "release" ["x", "S1"])).halted
        = some Halt.errH
      ∧ ReleasesParser.init.scratch.current_release.status = ""
      ∧ (processR 10 ReleasesParser.init
          (.startE "release" ["x", "S1"])).scratch.current_release.status
        = "S1" := by
  refine ⟨by decide, rfl, by decide⟩

/-- C10 amended: when `process` returns an error, the state variable, the
accumulated parent and child maps and the written output are unchanged
(the `self.state = match ...` assignment is skipped and, absent database
failures, no failing branch mutates a map), but the current-record
scratch slot may retain partial field writes made before the failure
point; for the artist parser every error return leaves the whole parser
untouched apart from the halt itself. -/
theorem C10_error_atomicity_amended (B : Nat) (p : ReleasesParser)
    (q : ArtistsParser) (ev ev' : XEvent)
    (hh : p.halted = none) (hh' : q.halted = none) :
    ((processR B p ev).halted = some Halt.errH →
      (processR B p ev).state = p.state
      ∧ (processR B p ev).releases = p.releases
      ∧ (processR B p ev).release_labels = p.release_labels
      ∧ (processR B p ev).release_videos = p.release_videos
      ∧ (processR B p ev).written = p.written)
    ∧ ((processA B q ev').halted = some Halt.errH →
      processA B q ev' = { q with halted := some Halt.errH }) := by
  constructor
  · intro h
    cases htr : transitionR p.state p.scratch ev with
    | ok s scr effs =>
      simp only [processR, hh, htr, foldl_applyEff_halted] at h
      simp at h
    | errT scr => simp only [processR, hh, htr]; simp
    | panicT scr =>
      simp only [processR, hh, htr] at h
      simp at h
  · intro h
    cases hst : q.state <;> cases ev' <;>
      simp only [processA, hh', hst] at h ⊢ <;>
      (revert h; repeat' split) <;>
      intro h <;>
      first
        | rfl
        | (exact absurd h (by simp))

/-- C10 witness: the amended error atomicity at concrete inputs — the
release parser on the bad-id opening tag keeps its (empty) maps, and the
artist parser in the Id state on non-numeric text changes nothing but the
halt flag. -/
theorem C10_error_atomicity_amended_witness :
    ((processR 10 ReleasesParser.init (.startE "release" ["x", "S1"])).releases
        = ReleasesParser.init.releases)
    ∧ (processA 10 { ArtistsParser.init with state := AState.Id } (.textE "x")
        = { { ArtistsParser.init with state := AState.Id } with
            halted := some Halt.errH }) :=
  ⟨((C10_error_atomicity_amended 10 ReleasesParser.init
      { ArtistsParser.init with state := AState.Id }
      (.startE "release" ["x", "S1"]) (.textE "x") rfl rfl).1
      (by decide)).2.1,
   (C10_error_atomicity_amended 10 ReleasesParser.init
      { ArtistsParser.init with state := AState.Id }
      (.startE "release" ["x", "S1"]) (.textE "x") rfl rfl).2
      (by decide)⟩

/-! ### Association-list and trace lemmas -/

theorem lookupA_eq_none {α : Type} (k : Int) (m : List (Int × α))
    (h : k ∉ keysA m) : lookupA k m = none := by
  induction m with
  | nil => rfl
  | cons kv t ih =>
    simp [keysA] at h
    simp [lookupA, h.1]
    exact ih (by simp [keysA, h.2])

theorem insertIfAbsent_of_fresh {α : Type} (k : Int) (v : α)
    (m : List (Int × α)) (h : k ∉ keysA m) :
    insertIfAbsent k v m = m ++ [(k, v)] := by
  simp [insertIfAbsent, lookupA_eq_none k m h]

theorem keysA_append {α : Type} (m₁ m₂ : List (Int × α)) :
    keysA (m₁ ++ m₂) = keysA m₁ ++ keysA m₂ := by
  simp [keysA]

theorem valsA_append {α : Type} (m₁ m₂ : List (Int × α)) :
    valsA (m₁ ++ m₂) = valsA m₁ ++ valsA m₂ := by
  simp [valsA]

theorem parentKeysOf_append (t₁ t₂ : List CommitOp) :
    parentKeysOf (t₁ ++ t₂) = parentKeysOf t₁ ++ parentKeysOf t₂ := by
  simp [parentKeysOf]

theorem labelKeysOf_append (t₁ t₂ : List CommitOp) :
    labelKeysOf (t₁ ++ t₂) = labelKeysOf t₁ ++ labelKeysOf t₂ := by
  simp [labelKeysOf]

theorem videoKeysOf_append (t₁ t₂ : List CommitOp) :
    videoKeysOf (t₁ ++ t₂) = videoKeysOf t₁ ++ videoKeysOf t₂ := by
  simp [videoKeysOf]

theorem parentRowsOf_append (t₁ t₂ : List CommitOp) :
    parentRowsOf (t₁ ++ t₂) = parentRowsOf t₁ ++ parentRowsOf t₂ := by
  simp [parentRowsOf]

theorem labelRowsOf_append (t₁ t₂ : List CommitOp) :
    labelRowsOf (t₁ ++ t₂) = labelRowsOf t₁ ++ labelRowsOf t₂ := by
  simp [labelRowsOf]

theorem videoRowsOf_append (t₁ t₂ : List CommitOp) :
    videoRowsOf (t₁ ++ t₂) = videoRowsOf t₁ ++ videoRowsOf t₂ := by
  simp [videoRowsOf]

theorem writtenParentRows_append (p : ReleasesParser) (c : FlushCall) :
    writtenParentRows { p with written := p.written ++ [c] }
      = writtenParentRows p ++ c.releaseRows := by
  simp [writtenParentRows]

theorem writtenLabelRows_append (p : ReleasesParser) (c : FlushCall) :
    writtenLabelRows { p with written := p.written ++ [c] }
      = writtenLabelRows p ++ c.labelRows := by
  simp [writtenLabelRows]

theorem writtenVideoRows_append (p : ReleasesParser) (c : FlushCall) :
    writtenVideoRows { p with written := p.written ++ [c] }
      = writtenVideoRows p ++ c.videoRows := by
  simp [writtenVideoRows]

/-! ### The sink invariant: written rows plus current map contents equal
the rows of the commit trace, and every map key was offered in the
trace. -/

/-- Relation between a release parser's sink data and its commit trace
that holds throughout a duplicate-free run: what has been handed to the
bulk writer plus what is still pending in the maps is, per table and as a
multiset, exactly the rows offered in commit attempts; and every pending
map key was offered. -/
def sinkInv (p : ReleasesParser) : Prop :=
  Multiset.ofList (writtenParentRows p) + Multiset.ofList (valsA p.releases)
      = Multiset.ofList (parentRowsOf p.trace)
    ∧ Multiset.ofList (writtenLabelRows p)
        + Multiset.ofList (valsA p.release_labels)
      = Multiset.ofList (labelRowsOf p.trace)
    ∧ Multiset.ofList (writtenVideoRows p)
        + Multiset.ofList (valsA p.release_videos)
      = Multiset.ofList (videoRowsOf p.trace)
    ∧ (∀ k ∈ keysA p.releases, k ∈ parentKeysOf p.trace)
    ∧ (∀ k ∈ keysA p.release_labels, k ∈ labelKeysOf p.trace)
    ∧ (∀ k ∈ keysA p.release_videos, k ∈ videoKeysOf p.trace)

theorem multisetOfList_append {α : Type} (l₁ l₂ : List α) :
    Multiset.ofList (l₁ ++ l₂) = Multiset.ofList l₁ + Multiset.ofList l₂ := by
  simp

theorem sinkInv_commitParent (B : Nat) (p : ReleasesParser) (k : Int) (r : Release)
    (hinv : sinkInv p) (hkfresh : k ∉ parentKeysOf p.trace) :
    sinkInv (applyEff B p (.commitParent k r)) := by
  obtain ⟨hP, hL, hV, hkP, hkL, hkV⟩ := hinv
  have hmfresh : k ∉ keysA p.releases := fun hk => hkfresh (hkP k hk)
  have hins := insertIfAbsent_of_fresh k r p.releases hmfresh
  have hqdef : applyEff B p (.commitParent k r)
      = { p with releases := p.releases ++ [(k, r)]
                 trace := p.trace ++ [CommitOp.parent k r] } := by
    simp [applyEff, hins]
  rw [hqdef]
  refine ⟨?_, ?_, ?_, ?_, ?_, ?_⟩
  · show Multiset.ofList (writtenParentRows p)
        + Multiset.ofList (valsA (p.releases ++ [(k, r)]))
      = Multiset.ofList (parentRowsOf (p.trace ++ [CommitOp.parent k r]))
    rw [valsA_append, parentRowsOf_append]
    rw [show valsA [((k : Int), r)] = [r] from rfl]
    rw [show parentRowsOf [CommitOp.parent k r] = [r] from rfl]
    rw [multisetOfList_append, multisetOfList_append, ← add_assoc, hP]
  · show Multiset.ofList (writtenLabelRows p)
        + Multiset.ofList (valsA p.release_labels)
      = Multiset.ofList (labelRowsOf (p.trace ++ [CommitOp.parent k r]))
    rw [labelRowsOf_append,
        show labelRowsOf [CommitOp.parent k r] = [] from rfl]
    rw [List.append_nil]
    exact hL
  · show Multiset.ofList (writtenVideoRows p)
        + Multiset.ofList (valsA p.release_videos)
      = Multiset.ofList (videoRowsOf (p.trace ++ [CommitOp.parent k r]))
    rw [videoRowsOf_append,
        show videoRowsOf [CommitOp.parent k r] = [] from rfl]
    rw [List.append_nil]
    exact hV
  · show ∀ k' ∈ keysA (p.releases ++ [(k, r)]),
        k' ∈ parentKeysOf (p.trace ++ [CommitOp.parent k r])
    intro k' hk'
    rw [keysA_append] at hk'
    rw [parentKeysOf_append]
    rcases List.mem_append.mp hk' with h | h
    · exact List.mem_append_left _ (hkP k' h)
    · apply List.mem_append_right
      simpa [keysA, parentKeysOf] using h
  · show ∀ k' ∈ keysA p.release_labels,
        k' ∈ labelKeysOf (p.trace ++ [CommitOp.parent k r])
    intro k' hk'
    rw [labelKeysOf_append]
    exact List.mem_append_left _ (hkL k' hk')
  · show ∀ k' ∈ keysA p.release_videos,
        k' ∈ videoKeysOf (p.trace ++ [CommitOp.parent k r])
    intro k' hk'
    rw [videoKeysOf_append]
    exact List.mem_append_left _ (hkV k' hk')

theorem sinkInv_commitLabel (B : Nat) (p : ReleasesParser) (k : Int)
    (r : ReleaseLabel) (hinv : sinkInv p) (hkfresh : k ∉ labelKeysOf p.trace) :
    sinkInv (applyEff B p (.commitLabel k r)) := by
  obtain ⟨hP, hL, hV, hkP, hkL, hkV⟩ := hinv
  have hmfresh : k ∉ keysA p.release_labels := fun hk => hkfresh (hkL k hk)
  have hins := insertIfAbsent_of_fresh k r p.release_labels hmfresh
  have hqdef : applyEff B p (.commitLabel k r)
      = { p with release_labels := p.release_labels ++ [(k, r)]
                 trace := p.trace ++ [CommitOp.labelC k r] } := by
    simp [applyEff, hins]
  rw [hqdef]
  refine ⟨?_, ?_, ?_, ?_, ?_, ?_⟩
  · show Multiset.ofList (writtenParentRows p)
        + Multiset.ofList (valsA p.releases)
      = Multiset.ofList (parentRowsOf (p.trace ++ [CommitOp.labelC k r]))
    rw [parentRowsOf_append,
        show parentRowsOf [CommitOp.labelC k r] = [] from rfl]
    rw [List.append_nil]
    exact hP
  · show Multiset.ofList (writtenLabelRows p)
        + Multiset.ofList (valsA (p.release_labels ++ [(k, r)]))
      = Multiset.ofList (labelRowsOf (p.trace ++ [CommitOp.labelC k r]))
    rw [valsA_append, labelRowsOf_append]
    rw [show valsA [((k : Int), r)] = [r] from rfl]
    rw [show labelRowsOf [CommitOp.labelC k r] = [r] from rfl]
    rw [multisetOfList_append, multisetOfList_append, ← add_assoc, hL]
  · show Multiset.ofList (writtenVideoRows p)
        + Multiset.ofList (valsA p.release_videos)
      = Multiset.ofList (videoRowsOf (p.trace ++ [CommitOp.labelC k r]))
    rw [videoRowsOf_append,
        show videoRowsOf [CommitOp.labelC k r] = [] from rfl]
    rw [List.append_nil]
    exact hV
  · show ∀ k' ∈ keysA p.releases,
        k' ∈ parentKeysOf (p.trace ++ [CommitOp.labelC k r])
    intro k' hk'
    rw [parentKeysOf_append]
    exact List.mem_append_left _ (hkP k' hk')
  · show ∀ k' ∈ keysA (p.release_labels ++ [(k, r)]),
        k' ∈ labelKeysOf (p.trace ++ [CommitOp.labelC k r])
    intro k' hk'
    rw [keysA_append] at hk'
    rw [labelKeysOf_append]
    rcases List.mem_append.mp hk' with h | h
    · exact List.mem_append_left _ (hkL k' h)
    · apply List.mem_append_right
      simpa [keysA, labelKeysOf] using h
  · show ∀ k' ∈ keysA p.release_videos,
        k' ∈ videoKeysOf (p.trace ++ [CommitOp.labelC k r])
    intro k' hk'
    rw [videoKeysOf_append]
    exact List.mem_append_left _ (hkV k' hk')

theorem sinkInv_commitVideo (B : Nat) (p : ReleasesParser) (k : Int)
    (r : ReleaseVideo) (hinv : sinkInv p) (hkfresh : k ∉ videoKeysOf p.trace) :
    sinkInv (applyEff B p (.commitVideo k r)) := by
  obtain ⟨hP, hL, hV, hkP, hkL, hkV⟩ := hinv
  have hmfresh : k ∉ keysA p.release_videos := fun hk => hkfresh (hkV k hk)
  have hins := insertIfAbsent_of_fresh k r p.release_videos hmfresh
  have hqdef : applyEff B p (.commitVideo k r)
      = { p with release_videos := p.release_videos ++ [(k, r)]
                 trace := p.trace ++ [CommitOp.videoC k r] } := by
    simp [applyEff, hins]
  rw [hqdef]
  refine ⟨?_, ?_, ?_, ?_, ?_, ?_⟩
  · show Multiset.ofList (writtenParentRows p)
        + Multiset.ofList (valsA p.releases)
      = Multiset.ofList (parentRowsOf (p.trace ++ [CommitOp.videoC k r]))
    rw [parentRowsOf_append,
        show parentRowsOf [CommitOp.videoC k r] = [] from rfl]
    rw [List.append_nil]
    exact hP
  · show Multiset.ofList (writtenLabelRows p)
        + Multiset.ofList (valsA p.release_labels)
      = Multiset.ofList (labelRowsOf (p.trace ++ [CommitOp.videoC k r]))
    rw [labelRowsOf_append,
        show labelRowsOf [CommitOp.videoC k r] = [] from rfl]
    rw [List.append_nil]
    exact hL
  · show Multiset.ofList (writtenVideoRows p)
        + Multiset.ofList (valsA (p.release_videos ++ [(k, r)]))
      = Multiset.ofList (videoRowsOf (p.trace ++ [CommitOp.videoC k r]))
    rw [valsA_append, videoRowsOf_append]
    rw [show valsA [((k : Int), r)] = [r] from rfl]
    rw [show videoRowsOf [CommitOp.videoC k r] = [r] from rfl]
    rw [multisetOfList_append, multisetOfList_append, ← add_assoc, hV]
  · show ∀ k' ∈ keysA p.releases,
        k' ∈ parentKeysOf (p.trace ++ [CommitOp.videoC k r])
    intro k' hk'
    rw [parentKeysOf_append]
    exact List.mem_append_left _ (hkP k' hk')
  · show ∀ k' ∈ keysA p.release_labels,
        k' ∈ labelKeysOf (p.trace ++ [CommitOp.videoC k r])
    intro k' hk'
    rw [labelKeysOf_append]
    exact List.mem_append_left _ (hkL k' hk')
  · show ∀ k' ∈ keysA (p.release_videos ++ [(k, r)]),
        k' ∈ videoKeysOf (p.trace ++ [CommitOp.videoC k r])
    intro k' hk'
    rw [keysA_append] at hk'
    rw [videoKeysOf_append]
    rcases List.mem_append.mp hk' with h | h
    · exact List.mem_append_left _ (hkV k' h)
    · apply List.mem_append_right
      simpa [keysA, videoKeysOf] using h

theorem sinkInv_flushIfFull (B : Nat) (p : ReleasesParser) (hinv : sinkInv p) :
    sinkInv (applyEff B p .flushIfFull) := by
  obtain ⟨hP, hL, hV, hkP, hkL, hkV⟩ := hinv
  simp only [applyEff]
  split
  · refine ⟨?_, ?_, ?_, ?_, ?_, ?_⟩
    · simp only [writtenParentRows, List.map_append, List.flatten_append]
      simp only [writtenParentRows] at hP
      simp [← hP, valsA]
    · simp only [writtenLabelRows, List.map_append, List.flatten_append]
      simp only [writtenLabelRows] at hL
      simp [← hL, valsA]
    · simp only [writtenVideoRows, List.map_append, List.flatten_append]
      simp only [writtenVideoRows] at hV
      simp [← hV, valsA]
    · intro k' hk'; simp [keysA] at hk'
    · intro k' hk'; simp [keysA] at hk'
    · intro k' hk'; simp [keysA] at hk'
  · exact ⟨hP, hL, hV, hkP, hkL, hkV⟩
theorem foldl_applyEff_inv (B : Nat) (effs : List REff) (p : ReleasesParser)
    (hinv : sinkInv p)
    (hndP : (parentKeysOf (p.trace ++ effs.filterMap commitOpOf)).Nodup)
    (hndL : (labelKeysOf (p.trace ++ effs.filterMap commitOpOf)).Nodup)
    (hndV : (videoKeysOf (p.trace ++ effs.filterMap commitOpOf)).Nodup)
    (hnr : REff.flushRemainder ∉ effs) :
    sinkInv (effs.foldl (applyEff B) p) := by
  induction effs generalizing p with
  | nil => simpa using hinv
  | cons e t ih =>
    rw [List.foldl_cons]
    have hnr' : REff.flushRemainder ∉ t := fun hm =>
      hnr (List.mem_cons_of_mem _ hm)
    have hrearr : (applyEff B p e).trace ++ t.filterMap commitOpOf
        = p.trace ++ (e :: t).filterMap commitOpOf := by
      rw [applyEff_trace, List.filterMap_cons]
      cases he : commitOpOf e <;> simp
    have hstep : sinkInv (applyEff B p e) := by
      cases e with
      | commitParent k r =>
        apply sinkInv_commitParent B p k r hinv
        intro hk
        rw [List.filterMap_cons] at hndP
        rw [show commitOpOf (REff.commitParent k r) = some (.parent k r) from rfl]
          at hndP
        rw [parentKeysOf_append] at hndP
        exact (List.disjoint_of_nodup_append hndP) hk (by simp [parentKeysOf])
      | commitLabel k r =>
        apply sinkInv_commitLabel B p k r hinv
        intro hk
        rw [List.filterMap_cons] at hndL
        rw [show commitOpOf (REff.commitLabel k r) = some (.labelC k r) from rfl]
          at hndL
        rw [labelKeysOf_append] at hndL
        exact (List.disjoint_of_nodup_append hndL) hk (by simp [labelKeysOf])
      | commitVideo k r =>
        apply sinkInv_commitVideo B p k r hinv
        intro hk
        rw [List.filterMap_cons] at hndV
        rw [show commitOpOf (REff.commitVideo k r) = some (.videoC k r) from rfl]
          at hndV
        rw [videoKeysOf_append] at hndV
        exact (List.disjoint_of_nodup_append hndV) hk (by simp [videoKeysOf])
      | flushIfFull => exact sinkInv_flushIfFull B p hinv
      | flushRemainder => exact absurd (List.mem_cons_self _ _) hnr
    exact ih (applyEff B p e) hstep
      (by rw [hrearr]; exact hndP)
      (by rw [hrearr]; exact hndL)
      (by rw [hrearr]; exact hndV)
      hnr'

theorem remainder_only_at_family_end (st : RState) (scr : RScratch)
    (ev : XEvent) (s : RState) (scr' : RScratch) (effs : List REff)
    (h : transitionR st scr ev = .ok s scr' effs)
    (hev : ev ≠ XEvent.endE "releases") :
    REff.flushRemainder ∉ effs := by
  cases st <;> cases ev <;>
    simp only [transitionR] at h <;>
    (repeat' split at h)
  all_goals try simp_all
  all_goals (obtain ⟨h1, h2, h3⟩ := h; subst h3; simp)
theorem processR_inv (B : Nat) (p : ReleasesParser) (ev : XEvent)
    (hinv : sinkInv p)
    (hndP : (parentKeysOf (processR B p ev).trace).Nodup)
    (hndL : (labelKeysOf (processR B p ev).trace).Nodup)
    (hndV : (videoKeysOf (processR B p ev).trace).Nodup)
    (hev : ev ≠ XEvent.endE "releases") :
    sinkInv (processR B p ev) := by
  cases hh : p.halted with
  | some w =>
    simp only [processR, hh]
    exact hinv
  | none =>
    cases htr : transitionR p.state p.scratch ev with
    | ok s scr effs =>
      have hbase : sinkInv { p with state := s, scratch := scr, halted := none } := hinv
      have htrace : (processR B p ev).trace
          = p.trace ++ effs.filterMap commitOpOf := by
        simp only [processR, hh, htr, foldl_applyEff_trace]
      simp only [processR, hh, htr]
      apply foldl_applyEff_inv B effs _ hbase
      · rw [show ({ p with state := s, scratch := scr, halted := none } :
            ReleasesParser).trace = p.trace from rfl]
        rw [← htrace]; exact hndP
      · rw [show ({ p with state := s, scratch := scr, halted := none } :
            ReleasesParser).trace = p.trace from rfl]
        rw [← htrace]; exact hndL
      · rw [show ({ p with state := s, scratch := scr, halted := none } :
            ReleasesParser).trace = p.trace from rfl]
        rw [← htrace]; exact hndV
      · exact remainder_only_at_family_end p.state p.scratch ev s scr effs htr hev
    | errT scr =>
      simp only [processR, hh, htr]
      exact hinv
    | panicT scr =>
      simp only [processR, hh, htr]
      exact hinv

theorem processR_trace_mono (B : Nat) (p : ReleasesParser) (ev : XEvent) :
    ∃ t, (processR B p ev).trace = p.trace ++ t := by
  cases hh : p.halted with
  | some w => exact ⟨[], by simp [processR, hh]⟩
  | none =>
    cases htr : transitionR p.state p.scratch ev with
    | ok s scr effs =>
      exact ⟨effs.filterMap commitOpOf, by
        simp only [processR, hh, htr, foldl_applyEff_trace]⟩
    | errT scr => exact ⟨[], by simp [processR, hh, htr]⟩
    | panicT scr => exact ⟨[], by simp [processR, hh, htr]⟩

theorem runRFrom_trace_mono (B : Nat) (evs : List XEvent) (p : ReleasesParser) :
    ∃ t, (runRFrom B p evs).trace = p.trace ++ t := by
  induction evs generalizing p with
  | nil => exact ⟨[], by simp [runRFrom]⟩
  | cons ev t ih =>
    obtain ⟨t₁, h₁⟩ := processR_trace_mono B p ev
    obtain ⟨t₂, h₂⟩ := ih (processR B p ev)
    refine ⟨t₁ ++ t₂, ?_⟩
    rw [show runRFrom B p (ev :: t) = runRFrom B (processR B p ev) t from rfl]
    rw [h₂, h₁, List.append_assoc]

theorem runRFrom_inv (B : Nat) (evs : List XEvent) (p : ReleasesParser)
    (hinv : sinkInv p)
    (hndP : (parentKeysOf (runRFrom B p evs).trace).Nodup)
    (hndL : (labelKeysOf (runRFrom B p evs).trace).Nodup)
    (hndV : (videoKeysOf (runRFrom B p evs).trace).Nodup)
    (hnoend : XEvent.endE "releases" ∉ evs) :
    sinkInv (runRFrom B p evs) := by
  induction evs generalizing p with
  | nil => simpa [runRFrom] using hinv
  | cons ev t ih =>
    have hev : ev ≠ XEvent.endE "releases" := by
      intro he; exact hnoend (he ▸ List.mem_cons_self ev t)
    have hnoend' : XEvent.endE "releases" ∉ t := fun hm =>
      hnoend (List.mem_cons_of_mem _ hm)
    have hrw : runRFrom B p (ev :: t) = runRFrom B (processR B p ev) t := rfl
    rw [hrw] at hndP hndL hndV ⊢
    obtain ⟨δ, hδ⟩ := runRFrom_trace_mono B t (processR B p ev)
    have hndP' : (parentKeysOf (processR B p ev).trace).Nodup := by
      rw [hδ, parentKeysOf_append] at hndP
      exact hndP.of_append_left
    have hndL' : (labelKeysOf (processR B p ev).trace).Nodup := by
      rw [hδ, labelKeysOf_append] at hndL
      exact hndL.of_append_left
    have hndV' : (videoKeysOf (processR B p ev).trace).Nodup := by
      rw [hδ, videoKeysOf_append] at hndV
      exact hndV.of_append_left
    exact ih (processR B p ev)
      (processR_inv B p ev hinv hndP' hndL' hndV' hev) hndP hndL hndV hnoend'
theorem processR_align (B : Nat) (p : ReleasesParser) (s : RSim) (ev : XEvent)
    (h1 : p.state = s.state) (h2 : p.scratch = s.scratch)
    (h3 : p.halted = s.halted) (h4 : p.trace = s.trace) :
    (processR B p ev).state = (simStepR s ev).state
    ∧ (processR B p ev).scratch = (simStepR s ev).scratch
    ∧ (processR B p ev).halted = (simStepR s ev).halted
    ∧ (processR B p ev).trace = (simStepR s ev).trace := by
  cases hh : s.halted with
  | some w =>
    have hph : p.halted = some w := h3.trans hh
    simp only [processR, simStepR, hph, hh]
    simp_all
  | none =>
    have hph : p.halted = none := h3.trans hh
    cases htr : transitionR s.state s.scratch ev with
    | ok st scr effs =>
      have htr' : transitionR p.state p.scratch ev = .ok st scr effs := by
        rw [h1, h2]; exact htr
      simp only [processR, simStepR, hph, hh, htr, htr']
      refine ⟨?_, ?_, ?_, ?_⟩
      · rw [foldl_applyEff_state]
      · rw [foldl_applyEff_scratch]
      · rw [foldl_applyEff_halted]
      · rw [foldl_applyEff_trace]
        simp [h4]
    | errT scr =>
      have htr' : transitionR p.state p.scratch ev = .errT scr := by
        rw [h1, h2]; exact htr
      simp only [processR, simStepR, hph, hh, htr, htr']
      simp_all
    | panicT scr =>
      have htr' : transitionR p.state p.scratch ev = .panicT scr := by
        rw [h1, h2]; exact htr
      simp only [processR, simStepR, hph, hh, htr, htr']
      simp_all

theorem runRFrom_align (B : Nat) (evs : List XEvent) (p : ReleasesParser)
    (s : RSim)
    (h1 : p.state = s.state) (h2 : p.scratch = s.scratch)
    (h3 : p.halted = s.halted) (h4 : p.trace = s.trace) :
    (runRFrom B p evs).state = (simRFrom s evs).state
    ∧ (runRFrom B p evs).scratch = (simRFrom s evs).scratch
    ∧ (runRFrom B p evs).halted = (simRFrom s evs).halted
    ∧ (runRFrom B p evs).trace = (simRFrom s evs).trace := by
  induction evs generalizing p s with
  | nil => exact ⟨h1, h2, h3, h4⟩
  | cons ev t ih =>
    obtain ⟨g1, g2, g3, g4⟩ := processR_align B p s ev h1 h2 h3 h4
    exact ih (processR B p ev) (simStepR s ev) g1 g2 g3 g4

/-- The four aligned components for full runs from the initial states. -/
theorem runR_align (B : Nat) (evs : List XEvent) :
    (runR B evs).state = (simR evs).state
    ∧ (runR B evs).scratch = (simR evs).scratch
    ∧ (runR B evs).halted = (simR evs).halted
    ∧ (runR B evs).trace = (simR evs).trace :=
  runRFrom_align B evs ReleasesParser.init RSim.init rfl rfl rfl rfl

/-- Two releases with the same id 10 (statuses "S1" and "S2") followed by
the family end tag — spec scenario S3's shape. -/
def evsDup : List XEvent :=
  [.startE "release" ["10", "S1"], .endE "release",
   .startE "release" ["10", "S2"], .endE "release", .endE "releases"]

/-- C1 counterexample: the claim says changing only the batch size never
changes which rows are written.  On a stream with a repeated primary key,
batch size 1 flushes after each record, so both occurrences of id 10 are
written (dedup is per batch), while batch size 2 keeps them in one batch
and first-write-wins drops the second: the written multisets differ. -/
theorem C1_written_rows_depend_on_batch_size :
    Multiset.ofList (writtenParentRows (runR 1 evsDup))
      ≠ Multiset.ofList (writtenParentRows (runR 2 evsDup)) := by
  decide

/-- C1 amended: the sequence of commit attempts offered to the sink is
batch-size independent — the trace of a run with any `B` equals that of
the sink-erased machine `simR`, which does not mention `B` — and for
valid event sequences (ending in the single `End(releases)`, processed
without abnormal halt from the accepting state) in which no two parent
commits share an id and no two child commits of the same table share a
key, the multiset of rows written to the database across all flushes is,
per table, exactly the rows of that batch-size-independent commit trace —
hence the same for every `B ≥ 1`.  (With duplicate keys, per-batch
first-write-wins makes the written rows depend on `B`, as the
counterexample shows.) -/
theorem C1_batch_independence_amended (B : Nat) (evs : List XEvent)
    (hB : 1 ≤ B)
    (hnoend : XEvent.endE "releases" ∉ evs)
    (hok : (simR evs).halted = none)
    (hstate : (simR evs).state = RState.Release)
    (hndP : (parentKeysOf (simR evs).trace).Nodup)
    (hndL : (labelKeysOf (simR evs).trace).Nodup)
    (hndV : (videoKeysOf (simR evs).trace).Nodup) :
    (runR B (evs ++ [.endE "releases"])).trace = (simR evs).trace
    ∧ Multiset.ofList (writtenParentRows (runR B (evs ++ [.endE "releases"])))
        = Multiset.ofList (parentRowsOf (simR evs).trace)
    ∧ Multiset.ofList (writtenLabelRows (runR B (evs ++ [.endE "releases"])))
        = Multiset.ofList (labelRowsOf (simR evs).trace)
    ∧ Multiset.ofList (writtenVideoRows (runR B (evs ++ [.endE "releases"])))
        = Multiset.ofList (videoRowsOf (simR evs).trace) := by
  obtain ⟨a1, a2, a3, a4⟩ := runR_align B evs
  have hst : (runR B evs).state = RState.Release := a1.trans hstate
  have hh : (runR B evs).halted = none := a3.trans hok
  have hinv₀ : sinkInv ReleasesParser.init := by
    refine ⟨?_, ?_, ?_, ?_, ?_, ?_⟩ <;>
      simp [writtenParentRows, writtenLabelRows, writtenVideoRows, valsA,
        parentRowsOf, labelRowsOf, videoRowsOf, keysA, ReleasesParser.init]
  have hinv : sinkInv (runR B evs) := by
    apply runRFrom_inv B evs ReleasesParser.init hinv₀
    · rw [show (runRFrom B ReleasesParser.init evs) = runR B evs from rfl, a4]
      exact hndP
    · rw [show (runRFrom B ReleasesParser.init evs) = runR B evs from rfl, a4]
      exact hndL
    · rw [show (runRFrom B ReleasesParser.init evs) = runR B evs from rfl, a4]
      exact hndV
    · exact hnoend
  have hlast : runR B (evs ++ [XEvent.endE "releases"])
      = processR B (runR B evs) (XEvent.endE "releases") := by
    simp [runR, runRFrom, List.foldl_append]
  have hstep : processR B (runR B evs) (XEvent.endE "releases")
      = { runR B evs with
          state := RState.Release
          written := (runR B evs).written ++
            [{ releaseRows := valsA (runR B evs).releases
               labelRows := valsA (runR B evs).release_labels
               videoRows := valsA (runR B evs).release_videos }] } := by
    simp only [processR, hh, hst, transitionR]
    simp [applyEff]
  obtain ⟨hP, hL, hV, hkP, hkL, hkV⟩ := hinv
  have e1 : writtenParentRows (processR B (runR B evs) (XEvent.endE "releases"))
      = writtenParentRows (runR B evs) ++ valsA (runR B evs).releases := by
    rw [hstep]; simp [writtenParentRows]
  have e2 : writtenLabelRows (processR B (runR B evs) (XEvent.endE "releases"))
      = writtenLabelRows (runR B evs) ++ valsA (runR B evs).release_labels := by
    rw [hstep]; simp [writtenLabelRows]
  have e3 : writtenVideoRows (processR B (runR B evs) (XEvent.endE "releases"))
      = writtenVideoRows (runR B evs) ++ valsA (runR B evs).release_videos := by
    rw [hstep]; simp [writtenVideoRows]
  have e4 : (processR B (runR B evs) (XEvent.endE "releases")).trace
      = (runR B evs).trace := by
    rw [hstep]
  rw [hlast]
  refine ⟨e4.trans a4, ?_, ?_, ?_⟩
  · rw [e1, multisetOfList_append, hP, a4]
  · rw [e2, multisetOfList_append, hL, a4]
  · rw [e3, multisetOfList_append, hV, a4]

/-- One release (id 1) with one label and one video child: a duplicate-free
stream for the amended batch-independence theorem. -/
def evsOneRelease : List XEvent :=
  [.startE "release" ["1", "A"],
   .startE "labels" [], .emptyE "label" ["LN", "C1", "9"], .endE "labels",
   .startE "videos" [], .startE "video" ["http://v", "180"], .endE "videos",
   .endE "release"]

/-- C1 witness: the amended theorem applied at batch size 3 to the
one-release stream — the parent rows written equal the rows of the
sink-erased commit trace. -/
theorem C1_batch_independence_amended_witness :
    Multiset.ofList (writtenParentRows (runR 3 (evsOneRelease ++ [.endE "releases"])))
      = Multiset.ofList (parentRowsOf (simR evsOneRelease).trace) :=
  (C1_batch_independence_amended 3 evsOneRelease (by decide) (by decide)
    (by decide) (by decide) (by decide) (by decide) (by decide)).2.1
